import Mathlib

/-!
Shallow embedding of `component_manager.py` (class `ComponentManager`) from the
piselfhosting_gui repository, together with proofs about the claims of its
specification.

Modelling conventions:
* Python scalar values that flow through the manager (form fields, JSON leaves)
  are modelled by `PyVal`: `None`, `bool`, `int`, `str`.  Python treats `bool`
  as a subclass of `int` (`isinstance(True, int)` is `True` and `True == 1`),
  which is reflected in `isPyInt`, `pyToInt` and `pyEq`.
* A Python dict is modelled as an association list with the first occurrence of
  a key authoritative; dict assignment replaces in place, insertion appends at
  the end, matching CPython insertion-order semantics.
* A component record (the `data` dict handed to `add_component` and
  `update_component`) is `Record`; the store `self.components_data` is `Store`.
* Exceptions `raise ValueError(...)` become `Except VErr` results, with one
  `VErr` constructor per distinct `raise` site of the source; a constructor
  carries the pieces of program data interpolated into the message.
* The backing file at `self.filepath` is modelled as `FileContent`: absent,
  present-but-unparsable, or present with a parsed JSON value (`Json`); the
  text encoding performed by `json.dump` / `json.load` is abstracted at the
  level of parsed JSON values.
-/

/-- Python scalar value: `None`, `bool`, `int` or `str`. -/
inductive PyVal where
  | vNone : PyVal
  | vBool : Bool → PyVal
  | vInt : Int → PyVal
  | vStr : String → PyVal
deriving DecidableEq, Repr

/-- Python truthiness (`if x:`): `None` is falsy, `bool` is itself, an `int`
is truthy iff nonzero, a `str` is truthy iff nonempty. -/
def truthy : PyVal → Bool
  | .vNone => false
  | .vBool b => b
  | .vInt n => n != 0
  | .vStr s => s != ""

/-- Python `isinstance(x, int)`: true for `int` and also for `bool`, since in
Python `bool` is a subclass of `int`. -/
def isPyInt : PyVal → Bool
  | .vInt _ => true
  | .vBool _ => true
  | _ => false

/-- Numeric value of a Python scalar where one exists (`True` counts as 1 and
`False` as 0); other values are only used behind an `isPyInt` guard. -/
def pyToInt : PyVal → Int
  | .vInt n => n
  | .vBool b => if b then 1 else 0
  | _ => 0

/-- Python `==` on the scalar domain: `None` equals only `None`, numbers
compare by numeric value across `bool` and `int` (`True == 1`), strings
compare as strings, and every cross-kind comparison is `False`. -/
def pyEq : PyVal → PyVal → Bool
  | .vNone, .vNone => true
  | .vBool a, .vBool b => a == b
  | .vBool a, .vInt n => (if a then (1 : Int) else 0) == n
  | .vInt n, .vBool a => n == (if a then (1 : Int) else 0)
  | .vInt n, .vInt m => n == m
  | .vStr a, .vStr b => a == b
  | _, _ => false

/-- A component record: the `data` dict passed to the manager, an association
list from field name to scalar value. -/
abbrev Record := List (String × PyVal)

/-- The store `self.components_data`: a dict from component id to record. -/
abbrev Store := List (String × Record)

/-- First-occurrence lookup in an association list (Python dict lookup;
keys are unique in any list that models an actual dict). -/
def alookup {β : Type} (k : String) : List (String × β) → Option β
  | [] => none
  | (k2, v) :: rest => if k2 = k then some v else alookup k rest

/-- Python `d.get(key)`: the stored value, or `None` when the key is absent. -/
def pget (r : Record) (k : String) : PyVal :=
  (alookup k r).getD .vNone

/-- Python dict assignment `d[k] = v`: replace in place if the key is present,
otherwise append at the end (CPython insertion order). -/
def dinsert {β : Type} (k : String) (v : β) : List (String × β) → List (String × β)
  | [] => [(k, v)]
  | (k2, v2) :: rest => if k2 = k then (k, v) :: rest else (k2, v2) :: dinsert k v rest

/-- Python `del d[k]`: remove the entry holding key `k`. -/
def ddel {β : Type} (k : String) : List (String × β) → List (String × β)
  | [] => []
  | (k2, v2) :: rest => if k2 = k then rest else (k2, v2) :: ddel k rest

/-- The keys of an association list, in order. -/
def akeys {β : Type} (s : List (String × β)) : List String :=
  s.map Prod.fst

/-- One constructor per `raise ValueError(...)` site of `ComponentManager`
(the ValidationError taxonomy); each carries the program data interpolated
into the corresponding message. -/
inductive VErr where
  | idEmpty : VErr
  | idInvalidChars : VErr
  | idExists : String → VErr
  | idDoesNotExist : String → VErr
  | uiPortInUse : PyVal → String → VErr
  | reverseProxyConflict : String → VErr
  | uiPortRequired : VErr
  | uiPortNotInRange : VErr
  | protocolRequired : VErr
  | protocolInvalid : VErr
  | iconRequired : VErr
  | dashySectionRequired : VErr
  | dashyUrlSuffixRequired : VErr
  | nameRequired : VErr
  | idNotFoundForDeletion : String → VErr
deriving DecidableEq, Repr

/-- Decidable equality for `Except` results, used to evaluate validator
outcomes on concrete inputs. -/
instance {e a : Type} [DecidableEq e] [DecidableEq a] : DecidableEq (Except e a)
  | .ok x, .ok y =>
    if h : x = y then .isTrue (by rw [h]) else .isFalse (fun hc => h (Except.ok.inj hc))
  | .error x, .error y =>
    if h : x = y then .isTrue (by rw [h]) else .isFalse (fun hc => h (Except.error.inj hc))
  | .ok _, .error _ => .isFalse Except.noConfusion
  | .error _, .ok _ => .isFalse Except.noConfusion

/-- Character class `[a-z0-9-]` of the identifier pattern. -/
def isIdChar (c : Char) : Bool :=
  (Char.ofNat 97 ≤ c && c ≤ Char.ofNat 122) || (Char.ofNat 48 ≤ c && c ≤ Char.ofNat 57) || c = Char.ofNat 45

/-- Nonempty run of identifier characters (`[a-z0-9-]+`). -/
def idBodyOk (cs : List Char) : Bool :=
  !cs.isEmpty && cs.all isIdChar

/-- Python `re.match(r"^[a-z0-9-]+$", s)` is truthy.  Python `$` (without
`re.MULTILINE`) matches at the end of the string or just before a newline that
is the last character, so the pattern also accepts a valid nonempty body
followed by one trailing newline. -/
def matchesIdPattern (s : String) : Bool :=
  idBodyOk s.data || ((s.data.getLast? == some (Char.ofNat 10)) && idBodyOk s.data.dropLast)

/-- Embedding of `ComponentManager._validate_component_id` (source lines
54-63): empty id, pattern mismatch, duplicate id on create, unknown id on
update, checked in that order. -/
def _validate_component_id (s : Store) (cid : String) (is_new : Bool) : Except VErr Unit :=
  if cid = "" then .error .idEmpty
  else if !matchesIdPattern cid then .error .idInvalidChars
  else if is_new && (alookup cid s).isSome then .error (.idExists cid)
  else if !is_new && (alookup cid s).isNone then .error (.idDoesNotExist cid)
  else .ok ()

/-- Iteration of `_validate_ui_port_uniqueness` over `components_data.items()`:
skip the component being edited, raise on the first other record whose
`has_ui` is truthy and whose `ui_port` compares `==` to the new port. -/
def uiPortLoop (newPort : PyVal) (edited : Option String) : Store → Except VErr Unit
  | [] => .ok ()
  | (cid, d) :: rest =>
    if edited = some cid then uiPortLoop newPort edited rest
    else if truthy (pget d "has_ui") && pyEq (pget d "ui_port") newPort then
      .error (.uiPortInUse newPort cid)
    else uiPortLoop newPort edited rest

/-- Embedding of `ComponentManager._validate_ui_port_uniqueness` (source lines
65-77): no check when the new port is `None`, otherwise scan all records
except the one being edited. -/
def _validate_ui_port_uniqueness (s : Store) (newPort : PyVal) (edited : Option String) :
    Except VErr Unit :=
  if newPort = .vNone then .ok () else uiPortLoop newPort edited s

/-- Iteration of `_validate_single_reverse_proxy`: skip the component being
edited, raise on the first other record whose `is_reverse_proxy` is truthy. -/
def proxyLoop (edited : Option String) : Store → Except VErr Unit
  | [] => .ok ()
  | (cid, d) :: rest =>
    if edited = some cid then proxyLoop edited rest
    else if truthy (pget d "is_reverse_proxy") then .error (.reverseProxyConflict cid)
    else proxyLoop edited rest

/-- Embedding of `ComponentManager._validate_single_reverse_proxy` (source
lines 79-91): no check when the new value is falsy, otherwise scan all records
except the one being edited. -/
def _validate_single_reverse_proxy (s : Store) (newVal : PyVal) (edited : Option String) :
    Except VErr Unit :=
  if !truthy newVal then .ok () else proxyLoop edited s

/-- The port condition of source line 98: `isinstance(p, int)` (booleans
included) and `1 <= p <= 65535`. -/
def pyIntOk (v : PyVal) : Bool :=
  isPyInt v && (decide ((1 : Int) ≤ pyToInt v) && decide (pyToInt v ≤ (65535 : Int)))

/-- Python `p in ["http", "https"]` (membership by `==`). -/
def protocolAllowed (v : PyVal) : Bool :=
  pyEq v (.vStr "http") || pyEq v (.vStr "https")

/-- Embedding of `ComponentManager._validate_dashy_tile_fields` (source lines
93-109): when `has_ui` is truthy, check in order that `ui_port` is not `None`,
is an int in 1..65535, `protocol` is truthy and one of http and https, `icon`
and `dashy_tile_section` are truthy, and `dashy_tile_url_suffix` is not `None`
(the empty string passes). -/
def _validate_dashy_tile_fields (d : Record) : Except VErr Unit :=
  if truthy (pget d "has_ui") then
    if pget d "ui_port" = .vNone then .error .uiPortRequired
    else if !pyIntOk (pget d "ui_port") then .error .uiPortNotInRange
    else if !truthy (pget d "protocol") then .error .protocolRequired
    else if !protocolAllowed (pget d "protocol") then .error .protocolInvalid
    else if !truthy (pget d "icon") then .error .iconRequired
    else if !truthy (pget d "dashy_tile_section") then .error .dashySectionRequired
    else if pget d "dashy_tile_url_suffix" = .vNone then .error .dashyUrlSuffixRequired
    else .ok ()
  else .ok ()

/-- Parsed JSON value, the content domain of the backing document. -/
inductive Json where
  | null : Json
  | bool : Bool → Json
  | num : Int → Json
  | str : String → Json
  | arr : List Json → Json
  | obj : List (String × Json) → Json

/-- State of the backing file at `self.filepath`: missing, present but not
parsable as JSON, or present with a parsed JSON value. -/
inductive FileContent where
  | absent : FileContent
  | malformed : FileContent
  | json : Json → FileContent

/-- Errors of `_load_data` (each surfaced as a `ValueError`):
`parseError` is the `json.JSONDecodeError` branch, `notADict` is the
`isinstance(data, dict)` failure (re-wrapped by the generic handler). -/
inductive LoadErr where
  | parseError : LoadErr
  | notADict : LoadErr
deriving DecidableEq, Repr

/-- Embedding of `ComponentManager._load_data` (source lines 15-32): a missing
file yields the empty dict (with only a printed warning), a parse failure or a
non-object top level raises, and a JSON object is adopted as the store. -/
def _load_data : FileContent → Except LoadErr (List (String × Json))
  | .absent => .ok []
  | .malformed => .error .parseError
  | .json j =>
    match j with
    | .obj kvs => .ok kvs
    | _ => .error .notADict

/-- JSON image of a scalar under `json.dump`. -/
def scalarToJson : PyVal → Json
  | .vNone => .null
  | .vBool b => .bool b
  | .vInt n => .num n
  | .vStr s => .str s

/-- JSON image of a record under `json.dump`. -/
def recordToJsonFields (r : Record) : List (String × Json) :=
  r.map fun f => (f.1, scalarToJson f.2)

/-- JSON image of the whole store under `json.dump`. -/
def storeToJson (s : Store) : Json :=
  .obj (s.map fun e => (e.1, .obj (recordToJsonFields e.2)))

/-- Scalar read back by `json.load` from a JSON leaf. -/
def jsonToScalar : Json → Option PyVal
  | .null => some .vNone
  | .bool b => some (.vBool b)
  | .num n => some (.vInt n)
  | .str s => some (.vStr s)
  | _ => none

/-- Record read back from the fields of a JSON object. -/
def recordFromJsonFields : List (String × Json) → Option Record
  | [] => some []
  | (k, j) :: rest =>
    match jsonToScalar j, recordFromJsonFields rest with
    | some v, some r => some ((k, v) :: r)
    | _, _ => none

/-- Record read back from a JSON value: only an object of scalar fields. -/
def recordFromJson : Json → Option Record
  | .obj fields => recordFromJsonFields fields
  | _ => none

/-- Store read back from the fields of the top-level JSON object. -/
def storeFromJsonKvs : List (String × Json) → Option Store
  | [] => some []
  | (k, j) :: rest =>
    match recordFromJson j, storeFromJsonKvs rest with
    | some r, some s => some ((k, r) :: s)
    | _, _ => none

/-- The manager state: the in-memory dict `self.components_data` together with
the content of the backing file at `self.filepath`. -/
structure Manager where
  components_data : Store
  file : FileContent

/-- Embedding of `ComponentManager._save_data` (source lines 34-44): the
in-memory dict is serialized and atomically becomes the file content. -/
def _save_data (m : Manager) : Manager :=
  { m with file := .json (storeToJson m.components_data) }

/-- Embedding of `ComponentManager.get_all_components` (source lines 46-48) as
a value: the full mapping. -/
def get_all_components (m : Manager) : Store :=
  m.components_data

/-- Embedding of `ComponentManager.get_component` (source lines 50-52):
`components_data.get(component_id)`, `None` when absent. -/
def get_component (m : Manager) (cid : String) : Option Record :=
  alookup cid m.components_data

/-- Embedding of `ComponentManager.add_component` (source lines 111-142):
validate the id as new, then (when `has_ui` is truthy) port uniqueness with no
exclusion and the Dashy tile fields, then (when `is_reverse_proxy` is truthy)
the reverse-proxy singleton with no exclusion, then the name; only then store
the record and save.  A raise leaves the state as it was, since every raise
happens before the assignment.  The `temp_data` copy built at source lines
115-118 is never read by any validator and has no counterpart here. -/
def add_component (m : Manager) (cid : String) (data : Record) : Except VErr Unit × Manager :=
  match _validate_component_id m.components_data cid true with
  | .error e => (.error e, m)
  | .ok _ =>
    match (if truthy (pget data "has_ui") then
            match _validate_ui_port_uniqueness m.components_data (pget data "ui_port") none with
            | .error e => .error e
            | .ok _ => _validate_dashy_tile_fields data
          else .ok () : Except VErr Unit) with
    | .error e => (.error e, m)
    | .ok _ =>
      match (if truthy (pget data "is_reverse_proxy") then
              _validate_single_reverse_proxy m.components_data (pget data "is_reverse_proxy") none
            else .ok ()) with
      | .error e => (.error e, m)
      | .ok _ =>
        if !truthy (pget data "name") then (.error .nameRequired, m)
        else
          (.ok (), _save_data { m with components_data := dinsert cid data m.components_data })

/-- Embedding of `ComponentManager.update_component` (source lines 144-162):
validate that the id exists, then the same checks as create except that the
uniqueness and singleton scans exclude the record being edited, then the name;
only then replace the record wholesale and save. -/
def update_component (m : Manager) (cid : String) (data : Record) : Except VErr Unit × Manager :=
  match _validate_component_id m.components_data cid false with
  | .error e => (.error e, m)
  | .ok _ =>
    match (if truthy (pget data "has_ui") then
            match _validate_ui_port_uniqueness m.components_data (pget data "ui_port") (some cid) with
            | .error e => .error e
            | .ok _ => _validate_dashy_tile_fields data
          else .ok () : Except VErr Unit) with
    | .error e => (.error e, m)
    | .ok _ =>
      match (if truthy (pget data "is_reverse_proxy") then
              _validate_single_reverse_proxy m.components_data (pget data "is_reverse_proxy") (some cid)
            else .ok ()) with
      | .error e => (.error e, m)
      | .ok _ =>
        if !truthy (pget data "name") then (.error .nameRequired, m)
        else
          (.ok (), _save_data { m with components_data := dinsert cid data m.components_data })

/-- Embedding of `ComponentManager.delete_component` (source lines 164-169):
unknown id raises, otherwise remove the entry and save. -/
def delete_component (m : Manager) (cid : String) : Except VErr Unit × Manager :=
  if (alookup cid m.components_data).isNone then
    (.error (.idNotFoundForDeletion cid), m)
  else
    (.ok (), _save_data { m with components_data := ddel cid m.components_data })

/-! ### Dictionary lemmas -/

theorem dinsert_cons_pos {β : Type} {k k2 : String} (v v2 : β) (tl : List (String × β))
    (hk : k2 = k) : dinsert k v ((k2, v2) :: tl) = (k, v) :: tl := by
  simp [dinsert, hk]

theorem dinsert_cons_neg {β : Type} {k k2 : String} (v v2 : β) (tl : List (String × β))
    (hk : ¬ k2 = k) : dinsert k v ((k2, v2) :: tl) = (k2, v2) :: dinsert k v tl := by
  simp [dinsert, hk]

theorem ddel_cons_pos {β : Type} {k k2 : String} (v2 : β) (tl : List (String × β))
    (hk : k2 = k) : ddel k ((k2, v2) :: tl) = tl := by
  simp [ddel, hk]

theorem ddel_cons_neg {β : Type} {k k2 : String} (v2 : β) (tl : List (String × β))
    (hk : ¬ k2 = k) : ddel k ((k2, v2) :: tl) = (k2, v2) :: ddel k tl := by
  simp [ddel, hk]

theorem alookup_cons {β : Type} (k2 c : String) (v2 : β) (tl : List (String × β)) :
    alookup c ((k2, v2) :: tl) = if k2 = c then some v2 else alookup c tl := rfl

theorem alookup_dinsert {β : Type} (s : List (String × β)) (k c : String) (v : β) :
    alookup c (dinsert k v s) = if k = c then some v else alookup c s := by
  induction s with
  | nil => simp [dinsert, alookup]
  | cons hd tl ih =>
    obtain ⟨k2, v2⟩ := hd
    by_cases hk : k2 = k
    · rw [dinsert_cons_pos v v2 tl hk, alookup_cons, alookup_cons]
      by_cases hc : k = c
      · simp [hc]
      · have hc2 : ¬ k2 = c := fun h2 => hc (hk ▸ h2)
        simp [hc, hc2]
    · rw [dinsert_cons_neg v v2 tl hk, alookup_cons, alookup_cons, ih]
      by_cases hc : k2 = c
      · have hc2 : ¬ k = c := fun h2 => hk (hc ▸ h2 ▸ rfl)
        simp [hc, hc2]
      · simp [hc]

theorem alookup_ddel {β : Type} (s : List (String × β)) (k c : String) (h : c ≠ k) :
    alookup c (ddel k s) = alookup c s := by
  induction s with
  | nil => simp [ddel]
  | cons hd tl ih =>
    obtain ⟨k2, v2⟩ := hd
    by_cases hk : k2 = k
    · rw [ddel_cons_pos v2 tl hk, alookup_cons]
      have hc2 : ¬ k2 = c := fun h2 => h (h2 ▸ hk)
      simp [hc2]
    · rw [ddel_cons_neg v2 tl hk, alookup_cons, alookup_cons, ih]

theorem mem_of_alookup_eq_some {β : Type} {s : List (String × β)} {c : String} {v : β}
    (h : alookup c s = some v) : (c, v) ∈ s := by
  induction s with
  | nil => simp [alookup] at h
  | cons hd tl ih =>
    obtain ⟨k2, v2⟩ := hd
    rw [alookup_cons] at h
    by_cases hk : k2 = c
    · rw [if_pos hk] at h
      obtain rfl : v2 = v := Option.some.inj h
      obtain rfl : k2 = c := hk
      exact List.mem_cons_self _ _
    · rw [if_neg hk] at h
      exact List.mem_cons_of_mem _ (ih h)

theorem mem_akeys {β : Type} {s : List (String × β)} {c : String} :
    c ∈ akeys s ↔ ∃ v, (c, v) ∈ s := by
  induction s with
  | nil => simp [akeys]
  | cons hd tl ih =>
    obtain ⟨k2, v2⟩ := hd
    simp only [akeys, List.map_cons, List.mem_cons] at ih ⊢
    constructor
    · rintro (h | h)
      · exact ⟨v2, by simp [h]⟩
      · obtain ⟨v, hv⟩ := ih.mp h
        exact ⟨v, Or.inr hv⟩
    · rintro ⟨v, hv | hv⟩
      · obtain ⟨h1, h2⟩ := Prod.mk.injEq .. ▸ hv
        exact Or.inl h1
      · exact Or.inr (ih.mpr ⟨v, hv⟩)

theorem mem_akeys_dinsert {β : Type} {s : List (String × β)} {k c : String} {v : β}
    (h : c ∈ akeys (dinsert k v s)) : c = k ∨ c ∈ akeys s := by
  induction s with
  | nil =>
    simp [dinsert, akeys] at h
    exact Or.inl h
  | cons hd tl ih =>
    obtain ⟨k2, v2⟩ := hd
    by_cases hk : k2 = k
    · rw [dinsert_cons_pos v v2 tl hk] at h
      simp only [akeys, List.map_cons, List.mem_cons] at h ⊢
      rcases h with h | h
      · exact Or.inl h
      · exact Or.inr (Or.inr h)
    · rw [dinsert_cons_neg v v2 tl hk] at h
      simp only [akeys, List.map_cons, List.mem_cons] at h ⊢
      rcases h with h | h
      · exact Or.inr (Or.inl h)
      · rcases ih h with h2 | h2
        · exact Or.inl h2
        · exact Or.inr (Or.inr h2)

theorem nodup_akeys_dinsert {β : Type} {s : List (String × β)} (k : String) (v : β)
    (h : (akeys s).Nodup) : (akeys (dinsert k v s)).Nodup := by
  induction s with
  | nil => simp [dinsert, akeys]
  | cons hd tl ih =>
    obtain ⟨k2, v2⟩ := hd
    simp only [akeys, List.map_cons, List.nodup_cons] at h
    by_cases hk : k2 = k
    · rw [dinsert_cons_pos v v2 tl hk]
      simp only [akeys, List.map_cons, List.nodup_cons]
      exact ⟨hk ▸ h.1, h.2⟩
    · rw [dinsert_cons_neg v v2 tl hk]
      simp only [akeys, List.map_cons, List.nodup_cons]
      refine ⟨fun hc => ?_, ih h.2⟩
      rcases mem_akeys_dinsert hc with h2 | h2
      · exact hk h2
      · exact h.1 h2

theorem mem_dinsert {β : Type} {s : List (String × β)} {k : String} {v : β}
    {p : String × β} (hn : (akeys s).Nodup) (h : p ∈ dinsert k v s) :
    p = (k, v) ∨ (p ∈ s ∧ p.1 ≠ k) := by
  induction s with
  | nil =>
    simp [dinsert] at h
    exact Or.inl h
  | cons hd tl ih =>
    obtain ⟨k2, v2⟩ := hd
    simp only [akeys, List.map_cons, List.nodup_cons] at hn
    by_cases hk : k2 = k
    · rw [dinsert_cons_pos v v2 tl hk] at h
      rcases List.mem_cons.mp h with h | h
      · exact Or.inl h
      · refine Or.inr ⟨List.mem_cons_of_mem _ h, fun hp => ?_⟩
        apply hn.1
        rw [← hk] at hp
        rw [← hp]
        exact mem_akeys.mpr ⟨p.2, by simpa using h⟩
    · rw [dinsert_cons_neg v v2 tl hk] at h
      rcases List.mem_cons.mp h with h | h
      · refine Or.inr ⟨by simp [h], ?_⟩
        rw [h]
        exact hk
      · rcases ih hn.2 h with h2 | h2
        · exact Or.inl h2
        · exact Or.inr ⟨List.mem_cons_of_mem _ h2.1, h2.2⟩

theorem mem_ddel {β : Type} {s : List (String × β)} {k : String} {p : String × β}
    (h : p ∈ ddel k s) : p ∈ s := by
  induction s with
  | nil => simp [ddel] at h
  | cons hd tl ih =>
    obtain ⟨k2, v2⟩ := hd
    by_cases hk : k2 = k
    · rw [ddel_cons_pos v2 tl hk] at h
      exact List.mem_cons_of_mem _ h
    · rw [ddel_cons_neg v2 tl hk] at h
      rcases List.mem_cons.mp h with h | h
      · simp [h]
      · exact List.mem_cons_of_mem _ (ih h)

theorem nodup_akeys_ddel {β : Type} {s : List (String × β)} (k : String)
    (h : (akeys s).Nodup) : (akeys (ddel k s)).Nodup := by
  induction s with
  | nil => simp [ddel, akeys]
  | cons hd tl ih =>
    obtain ⟨k2, v2⟩ := hd
    simp only [akeys, List.map_cons, List.nodup_cons] at h
    by_cases hk : k2 = k
    · rw [ddel_cons_pos v2 tl hk]
      exact h.2
    · rw [ddel_cons_neg v2 tl hk]
      simp only [akeys, List.map_cons, List.nodup_cons]
      refine ⟨fun hc => ?_, ih h.2⟩
      obtain ⟨v3, hv3⟩ := mem_akeys.mp hc
      exact h.1 (mem_akeys.mpr ⟨v3, mem_ddel hv3⟩)

theorem pyEq_symm (a b : PyVal) : pyEq a b = pyEq b a := by
  cases a <;> cases b <;> simp [pyEq] <;> constructor <;> (intro h; exact h.symm)

/-! ### Validator characterizations -/

theorem validate_component_id_ok_iff (s : Store) (cid : String) (is_new : Bool) :
    _validate_component_id s cid is_new = .ok () ↔
      cid ≠ "" ∧ matchesIdPattern cid = true ∧
      (is_new = true → alookup cid s = none) ∧
      (is_new = false → (alookup cid s).isSome = true) := by
  cases is_new <;>
    · unfold _validate_component_id
      split_ifs <;> simp_all <;> cases halook : alookup cid s <;> simp_all

theorem uiPortLoop_ok_iff (newPort : PyVal) (edited : Option String) (s : Store) :
    uiPortLoop newPort edited s = .ok () ↔
      ∀ p ∈ s, edited ≠ some p.1 → truthy (pget p.2 "has_ui") = true →
        pyEq (pget p.2 "ui_port") newPort = false := by
  induction s with
  | nil => simp [uiPortLoop]
  | cons hd tl ih =>
    obtain ⟨cid, d⟩ := hd
    by_cases he : edited = some cid
    · simp only [uiPortLoop, if_pos he, ih, List.mem_cons]
      constructor
      · rintro h p (rfl | hp)
        · intro hc; exact absurd he hc
        · exact h p hp
      · intro h p hp
        exact h p (Or.inr hp)
    · by_cases hc : truthy (pget d "has_ui") && pyEq (pget d "ui_port") newPort
      · simp only [uiPortLoop, if_neg he, if_pos hc]
        simp only [Bool.and_eq_true] at hc
        constructor
        · intro h; exact absurd h (by simp)
        · intro h
          have := h (cid, d) (List.mem_cons_self _ _) he hc.1
          rw [hc.2] at this
          exact absurd this (by simp)
      · simp only [uiPortLoop, if_neg he, if_neg hc, ih, List.mem_cons]
        simp only [Bool.and_eq_true, not_and] at hc
        constructor
        · rintro h p (rfl | hp)
          · intro _ hu
            have h3 := hc hu
            simpa using h3
          · exact h p hp
        · intro h p hp
          exact h p (Or.inr hp)

theorem validate_ui_port_uniqueness_ok_iff (s : Store) (newPort : PyVal) (edited : Option String) :
    _validate_ui_port_uniqueness s newPort edited = .ok () ↔
      (newPort = .vNone ∨
        ∀ p ∈ s, edited ≠ some p.1 → truthy (pget p.2 "has_ui") = true →
          pyEq (pget p.2 "ui_port") newPort = false) := by
  unfold _validate_ui_port_uniqueness
  by_cases hn : newPort = .vNone
  · simp [hn]
  · simp [hn, uiPortLoop_ok_iff]

theorem proxyLoop_ok_iff (edited : Option String) (s : Store) :
    proxyLoop edited s = .ok () ↔
      ∀ p ∈ s, edited ≠ some p.1 → truthy (pget p.2 "is_reverse_proxy") = false := by
  induction s with
  | nil => simp [proxyLoop]
  | cons hd tl ih =>
    obtain ⟨cid, d⟩ := hd
    by_cases he : edited = some cid
    · simp only [proxyLoop, if_pos he, ih, List.mem_cons]
      constructor
      · rintro h p (rfl | hp)
        · intro hc; exact absurd he hc
        · exact h p hp
      · intro h p hp
        exact h p (Or.inr hp)
    · by_cases hc : truthy (pget d "is_reverse_proxy")
      · simp only [proxyLoop, if_neg he, if_pos hc]
        constructor
        · intro h; exact absurd h (by simp)
        · intro h
          have := h (cid, d) (List.mem_cons_self _ _) he
          rw [hc] at this
          exact absurd this (by simp)
      · simp only [proxyLoop, if_neg he, if_neg hc, ih, List.mem_cons]
        constructor
        · rintro h p (rfl | hp)
          · intro _
            simpa using hc
          · exact h p hp
        · intro h p hp
          exact h p (Or.inr hp)

theorem validate_single_reverse_proxy_ok_iff (s : Store) (newVal : PyVal) (edited : Option String) :
    _validate_single_reverse_proxy s newVal edited = .ok () ↔
      (truthy newVal = false ∨
        ∀ p ∈ s, edited ≠ some p.1 → truthy (pget p.2 "is_reverse_proxy") = false) := by
  unfold _validate_single_reverse_proxy
  by_cases hn : truthy newVal
  · simp [hn, proxyLoop_ok_iff]
  · simp only [Bool.not_eq_true] at hn
    simp [hn]

theorem validate_dashy_ok_iff (d : Record) :
    _validate_dashy_tile_fields d = .ok () ↔
      (truthy (pget d "has_ui") = true →
        (pget d "ui_port" ≠ .vNone ∧ pyIntOk (pget d "ui_port") = true ∧
         truthy (pget d "protocol") = true ∧ protocolAllowed (pget d "protocol") = true ∧
         truthy (pget d "icon") = true ∧ truthy (pget d "dashy_tile_section") = true ∧
         pget d "dashy_tile_url_suffix" ≠ .vNone)) := by
  unfold _validate_dashy_tile_fields
  split_ifs <;> simp_all

/-! ### Operation characterizations -/

theorem add_component_ok_iff (m : Manager) (cid : String) (data : Record) (m2 : Manager) :
    add_component m cid data = (.ok (), m2) ↔
      (_validate_component_id m.components_data cid true = .ok () ∧
       (truthy (pget data "has_ui") = true →
         _validate_ui_port_uniqueness m.components_data (pget data "ui_port") none = .ok () ∧
         _validate_dashy_tile_fields data = .ok ()) ∧
       (truthy (pget data "is_reverse_proxy") = true →
         _validate_single_reverse_proxy m.components_data (pget data "is_reverse_proxy") none = .ok ()) ∧
       truthy (pget data "name") = true ∧
       m2 = _save_data { m with components_data := dinsert cid data m.components_data }) := by
  unfold add_component
  cases h1 : _validate_component_id m.components_data cid true with
  | error e => simp [h1]
  | ok u =>
    cases u
    cases hu : truthy (pget data "has_ui") with
    | false =>
      cases hp : truthy (pget data "is_reverse_proxy") with
      | false =>
        cases hn : truthy (pget data "name") <;> simp [eq_comm]
      | true =>
        cases h3 : _validate_single_reverse_proxy m.components_data (pget data "is_reverse_proxy") none with
        | error e => simp_all
        | ok u2 =>
          cases u2
          cases hn : truthy (pget data "name") <;> simp [eq_comm]
    | true =>
      cases h2 : _validate_ui_port_uniqueness m.components_data (pget data "ui_port") none with
      | error e => simp_all
      | ok u2 =>
        cases u2
        cases h2b : _validate_dashy_tile_fields data with
        | error e => simp_all
        | ok u3 =>
          cases u3
          cases hp : truthy (pget data "is_reverse_proxy") with
          | false =>
            cases hn : truthy (pget data "name") <;> simp [eq_comm]
          | true =>
            cases h3 : _validate_single_reverse_proxy m.components_data (pget data "is_reverse_proxy") none with
            | error e => simp_all
            | ok u4 =>
              cases u4
              cases hn : truthy (pget data "name") <;> simp [eq_comm]

theorem update_component_ok_iff (m : Manager) (cid : String) (data : Record) (m2 : Manager) :
    update_component m cid data = (.ok (), m2) ↔
      (_validate_component_id m.components_data cid false = .ok () ∧
       (truthy (pget data "has_ui") = true →
         _validate_ui_port_uniqueness m.components_data (pget data "ui_port") (some cid) = .ok () ∧
         _validate_dashy_tile_fields data = .ok ()) ∧
       (truthy (pget data "is_reverse_proxy") = true →
         _validate_single_reverse_proxy m.components_data (pget data "is_reverse_proxy") (some cid) = .ok ()) ∧
       truthy (pget data "name") = true ∧
       m2 = _save_data { m with components_data := dinsert cid data m.components_data }) := by
  unfold update_component
  cases h1 : _validate_component_id m.components_data cid false with
  | error e => simp [h1]
  | ok u =>
    cases u
    cases hu : truthy (pget data "has_ui") with
    | false =>
      cases hp : truthy (pget data "is_reverse_proxy") with
      | false =>
        cases hn : truthy (pget data "name") <;> simp [eq_comm]
      | true =>
        cases h3 : _validate_single_reverse_proxy m.components_data (pget data "is_reverse_proxy") (some cid) with
        | error e => simp_all
        | ok u2 =>
          cases u2
          cases hn : truthy (pget data "name") <;> simp [eq_comm]
    | true =>
      cases h2 : _validate_ui_port_uniqueness m.components_data (pget data "ui_port") (some cid) with
      | error e => simp_all
      | ok u2 =>
        cases u2
        cases h2b : _validate_dashy_tile_fields data with
        | error e => simp_all
        | ok u3 =>
          cases u3
          cases hp : truthy (pget data "is_reverse_proxy") with
          | false =>
            cases hn : truthy (pget data "name") <;> simp [eq_comm]
          | true =>
            cases h3 : _validate_single_reverse_proxy m.components_data (pget data "is_reverse_proxy") (some cid) with
            | error e => simp_all
            | ok u4 =>
              cases u4
              cases hn : truthy (pget data "name") <;> simp [eq_comm]

theorem delete_component_ok_iff (m : Manager) (cid : String) (m2 : Manager) :
    delete_component m cid = (.ok (), m2) ↔
      ((alookup cid m.components_data).isSome = true ∧
       m2 = _save_data { m with components_data := ddel cid m.components_data }) := by
  unfold delete_component
  cases halook : alookup cid m.components_data <;> simp [eq_comm]

theorem add_component_error_frame (m : Manager) (cid : String) (data : Record) (e : VErr)
    (m2 : Manager) (h : add_component m cid data = (.error e, m2)) : m2 = m := by
  unfold add_component at h
  cases h1 : _validate_component_id m.components_data cid true with
  | error e2 => rw [h1] at h; exact (Prod.mk.injEq .. ▸ h).2.symm
  | ok u =>
    cases u
    rw [h1] at h
    cases h2 : (if truthy (pget data "has_ui") = true then
            match _validate_ui_port_uniqueness m.components_data (pget data "ui_port") none with
            | .error e => .error e
            | .ok _ => _validate_dashy_tile_fields data
          else .ok () : Except VErr Unit) with
    | error e2 => rw [h2] at h; exact (Prod.mk.injEq .. ▸ h).2.symm
    | ok u2 =>
      cases u2
      rw [h2] at h
      cases h3 : (if truthy (pget data "is_reverse_proxy") = true then
              _validate_single_reverse_proxy m.components_data (pget data "is_reverse_proxy") none
            else .ok () : Except VErr Unit) with
      | error e2 => rw [h3] at h; exact (Prod.mk.injEq .. ▸ h).2.symm
      | ok u3 =>
        cases u3
        rw [h3] at h
        cases hn : truthy (pget data "name") with
        | false => rw [hn] at h; simp at h; exact h.2.symm
        | true => rw [hn] at h; simp at h

theorem update_component_error_frame (m : Manager) (cid : String) (data : Record) (e : VErr)
    (m2 : Manager) (h : update_component m cid data = (.error e, m2)) : m2 = m := by
  unfold update_component at h
  cases h1 : _validate_component_id m.components_data cid false with
  | error e2 => rw [h1] at h; exact (Prod.mk.injEq .. ▸ h).2.symm
  | ok u =>
    cases u
    rw [h1] at h
    cases h2 : (if truthy (pget data "has_ui") = true then
            match _validate_ui_port_uniqueness m.components_data (pget data "ui_port") (some cid) with
            | .error e => .error e
            | .ok _ => _validate_dashy_tile_fields data
          else .ok () : Except VErr Unit) with
    | error e2 => rw [h2] at h; exact (Prod.mk.injEq .. ▸ h).2.symm
    | ok u2 =>
      cases u2
      rw [h2] at h
      cases h3 : (if truthy (pget data "is_reverse_proxy") = true then
              _validate_single_reverse_proxy m.components_data (pget data "is_reverse_proxy") (some cid)
            else .ok () : Except VErr Unit) with
      | error e2 => rw [h3] at h; exact (Prod.mk.injEq .. ▸ h).2.symm
      | ok u3 =>
        cases u3
        rw [h3] at h
        cases hn : truthy (pget data "name") with
        | false => rw [hn] at h; simp at h; exact h.2.symm
        | true => rw [hn] at h; simp at h

theorem delete_component_error_frame (m : Manager) (cid : String) (e : VErr)
    (m2 : Manager) (h : delete_component m cid = (.error e, m2)) : m2 = m := by
  unfold delete_component at h
  cases halook : alookup cid m.components_data with
  | none => simp [halook] at h; exact h.2.symm
  | some v => simp [halook] at h

/-! ### The store invariants I1 to I5 of the specification -/

/-- I1: every identifier is non-empty, matches the identifier pattern and is
unique. -/
def I1 (s : Store) : Prop :=
  (∀ p ∈ s, p.1 ≠ "" ∧ matchesIdPattern p.1 = true) ∧ (akeys s).Nodup

/-- I2: among records whose `has_ui` is truthy, `ui_port` values are pairwise
distinct (distinctness judged by Python `==`, the comparison the store uses). -/
def I2 (s : Store) : Prop :=
  ∀ p ∈ s, ∀ q ∈ s, p.1 ≠ q.1 →
    truthy (pget p.2 "has_ui") = true → truthy (pget q.2 "has_ui") = true →
    pyEq (pget p.2 "ui_port") (pget q.2 "ui_port") = false

/-- I3: at most one record has a truthy `is_reverse_proxy` (no two distinct
records both have it truthy). -/
def I3 (s : Store) : Prop :=
  ∀ p ∈ s, ∀ q ∈ s, p.1 ≠ q.1 →
    truthy (pget p.2 "is_reverse_proxy") = true →
    truthy (pget q.2 "is_reverse_proxy") = true → False

/-- I4: every record whose `has_ui` is truthy carries all UI-group required
fields satisfying their individual constraints (exactly the condition checked
by `_validate_dashy_tile_fields`). -/
def I4 (s : Store) : Prop :=
  ∀ p ∈ s, truthy (pget p.2 "has_ui") = true → _validate_dashy_tile_fields p.2 = .ok ()

/-- I5: every record has a truthy (non-empty) `name`. -/
def I5 (s : Store) : Prop :=
  ∀ p ∈ s, truthy (pget p.2 "name") = true

/-- All store invariants of the specification. -/
def StoreInv (s : Store) : Prop :=
  I1 s ∧ I2 s ∧ I3 s ∧ I4 s ∧ I5 s

theorem inv_nil : StoreInv [] := by
  refine ⟨⟨?_, ?_⟩, ?_, ?_, ?_, ?_⟩ <;> simp [akeys, I2, I3, I4, I5]

/-- Manager states reachable from an initially empty store by successful
mutations. -/
inductive Reachable : Manager → Prop where
  | init (f : FileContent) : Reachable ⟨[], f⟩
  | add {m m2 : Manager} {cid : String} {data : Record} :
      Reachable m → add_component m cid data = (.ok (), m2) → Reachable m2
  | update {m m2 : Manager} {cid : String} {data : Record} :
      Reachable m → update_component m cid data = (.ok (), m2) → Reachable m2
  | delete {m m2 : Manager} {cid : String} :
      Reachable m → delete_component m cid = (.ok (), m2) → Reachable m2

/-! ### Invariant preservation -/

theorem storeInv_add {m m2 : Manager} {cid : String} {data : Record}
    (hinv : StoreInv m.components_data) (h : add_component m cid data = (.ok (), m2)) :
    StoreInv m2.components_data := by
  rw [add_component_ok_iff] at h
  obtain ⟨hid, hui, hproxy, hname, hm2⟩ := h
  rw [validate_component_id_ok_iff] at hid
  obtain ⟨hne, hpat, hfresh0, -⟩ := hid
  have hfresh := hfresh0 rfl
  obtain ⟨⟨h1a, h1b⟩, h2, h3, h4, h5⟩ := hinv
  have hstore : m2.components_data = dinsert cid data m.components_data := by
    rw [hm2]; rfl
  rw [hstore]
  refine ⟨⟨?_, nodup_akeys_dinsert _ _ h1b⟩, ?_, ?_, ?_, ?_⟩
  · intro p hp
    rcases mem_dinsert h1b hp with rfl | ⟨hps, -⟩
    · exact ⟨hne, hpat⟩
    · exact h1a p hps
  · -- I2
    intro p hp q hq hpq hpu hqu
    have hports : truthy (pget data "has_ui") = true →
        ∀ r ∈ m.components_data, truthy (pget r.2 "has_ui") = true →
          pyEq (pget r.2 "ui_port") (pget data "ui_port") = false := by
      intro ht r hr hru
      obtain ⟨hport, hdashy⟩ := hui ht
      rw [validate_ui_port_uniqueness_ok_iff] at hport
      rcases hport with hnone | hall
      · rw [validate_dashy_ok_iff] at hdashy
        exact absurd hnone (hdashy ht).1
      · exact hall r hr (by simp) hru
    rcases mem_dinsert h1b hp with rfl | ⟨hps, hpne⟩
    · rcases mem_dinsert h1b hq with rfl | ⟨hqs, hqne⟩
      · exact absurd rfl hpq
      · rw [pyEq_symm]
        exact hports hpu q hqs hqu
    · rcases mem_dinsert h1b hq with rfl | ⟨hqs, hqne⟩
      · exact hports hqu p hps hpu
      · exact h2 p hps q hqs hpq hpu hqu
  · -- I3
    intro p hp q hq hpq hpu hqu
    have hprox : truthy (pget data "is_reverse_proxy") = true →
        ∀ r ∈ m.components_data, truthy (pget r.2 "is_reverse_proxy") = false := by
      intro ht r hr
      have hok := hproxy ht
      rw [validate_single_reverse_proxy_ok_iff] at hok
      rcases hok with hfalse | hall
      · rw [ht] at hfalse; exact absurd hfalse (by simp)
      · exact hall r hr (by simp)
    rcases mem_dinsert h1b hp with rfl | ⟨hps, hpne⟩
    · rcases mem_dinsert h1b hq with rfl | ⟨hqs, hqne⟩
      · exact absurd rfl hpq
      · rw [hprox hpu q hqs] at hqu; exact absurd hqu (by simp)
    · rcases mem_dinsert h1b hq with rfl | ⟨hqs, hqne⟩
      · rw [hprox hqu p hps] at hpu; exact absurd hpu (by simp)
      · exact h3 p hps q hqs hpq hpu hqu
  · -- I4
    intro p hp hpu
    rcases mem_dinsert h1b hp with rfl | ⟨hps, -⟩
    · exact (hui hpu).2
    · exact h4 p hps hpu
  · -- I5
    intro p hp
    rcases mem_dinsert h1b hp with rfl | ⟨hps, -⟩
    · exact hname
    · exact h5 p hps

theorem storeInv_update {m m2 : Manager} {cid : String} {data : Record}
    (hinv : StoreInv m.components_data) (h : update_component m cid data = (.ok (), m2)) :
    StoreInv m2.components_data := by
  rw [update_component_ok_iff] at h
  obtain ⟨hid, hui, hproxy, hname, hm2⟩ := h
  rw [validate_component_id_ok_iff] at hid
  obtain ⟨hne, hpat, -, -⟩ := hid
  obtain ⟨⟨h1a, h1b⟩, h2, h3, h4, h5⟩ := hinv
  have hstore : m2.components_data = dinsert cid data m.components_data := by
    rw [hm2]; rfl
  rw [hstore]
  refine ⟨⟨?_, nodup_akeys_dinsert _ _ h1b⟩, ?_, ?_, ?_, ?_⟩
  · intro p hp
    rcases mem_dinsert h1b hp with rfl | ⟨hps, -⟩
    · exact ⟨hne, hpat⟩
    · exact h1a p hps
  · -- I2
    intro p hp q hq hpq hpu hqu
    have hports : truthy (pget data "has_ui") = true →
        ∀ r ∈ m.components_data, r.1 ≠ cid → truthy (pget r.2 "has_ui") = true →
          pyEq (pget r.2 "ui_port") (pget data "ui_port") = false := by
      intro ht r hr hrne hru
      obtain ⟨hport, hdashy⟩ := hui ht
      rw [validate_ui_port_uniqueness_ok_iff] at hport
      rcases hport with hnone | hall
      · rw [validate_dashy_ok_iff] at hdashy
        exact absurd hnone (hdashy ht).1
      · refine hall r hr ?_ hru
        simp only [ne_eq, Option.some.injEq]
        exact fun h6 => hrne h6.symm
    rcases mem_dinsert h1b hp with rfl | ⟨hps, hpne⟩
    · rcases mem_dinsert h1b hq with rfl | ⟨hqs, hqne⟩
      · exact absurd rfl hpq
      · rw [pyEq_symm]
        exact hports hpu q hqs hqne hqu
    · rcases mem_dinsert h1b hq with rfl | ⟨hqs, hqne⟩
      · exact hports hqu p hps hpne hpu
      · exact h2 p hps q hqs hpq hpu hqu
  · -- I3
    intro p hp q hq hpq hpu hqu
    have hprox : truthy (pget data "is_reverse_proxy") = true →
        ∀ r ∈ m.components_data, r.1 ≠ cid → truthy (pget r.2 "is_reverse_proxy") = false := by
      intro ht r hr hrne
      have hok := hproxy ht
      rw [validate_single_reverse_proxy_ok_iff] at hok
      rcases hok with hfalse | hall
      · rw [ht] at hfalse; exact absurd hfalse (by simp)
      · refine hall r hr ?_
        simp only [ne_eq, Option.some.injEq]
        exact fun h6 => hrne h6.symm
    rcases mem_dinsert h1b hp with rfl | ⟨hps, hpne⟩
    · rcases mem_dinsert h1b hq with rfl | ⟨hqs, hqne⟩
      · exact absurd rfl hpq
      · rw [hprox hpu q hqs hqne] at hqu; exact absurd hqu (by simp)
    · rcases mem_dinsert h1b hq with rfl | ⟨hqs, hqne⟩
      · rw [hprox hqu p hps hpne] at hpu; exact absurd hpu (by simp)
      · exact h3 p hps q hqs hpq hpu hqu
  · -- I4
    intro p hp hpu
    rcases mem_dinsert h1b hp with rfl | ⟨hps, -⟩
    · exact (hui hpu).2
    · exact h4 p hps hpu
  · -- I5
    intro p hp
    rcases mem_dinsert h1b hp with rfl | ⟨hps, -⟩
    · exact hname
    · exact h5 p hps

theorem storeInv_delete {m m2 : Manager} {cid : String}
    (hinv : StoreInv m.components_data) (h : delete_component m cid = (.ok (), m2)) :
    StoreInv m2.components_data := by
  rw [delete_component_ok_iff] at h
  obtain ⟨-, hm2⟩ := h
  obtain ⟨⟨h1a, h1b⟩, h2, h3, h4, h5⟩ := hinv
  have hstore : m2.components_data = ddel cid m.components_data := by
    rw [hm2]; rfl
  rw [hstore]
  refine ⟨⟨fun p hp => h1a p (mem_ddel hp), nodup_akeys_ddel _ h1b⟩,
    fun p hp q hq => h2 p (mem_ddel hp) q (mem_ddel hq),
    fun p hp q hq => h3 p (mem_ddel hp) q (mem_ddel hq),
    fun p hp => h4 p (mem_ddel hp),
    fun p hp => h5 p (mem_ddel hp)⟩

/-! ### Concrete fixtures used by witnesses -/

/-- The manager right after construction over a missing file: empty store. -/
def exManager0 : Manager := ⟨[], .absent⟩

/-- A fully valid UI record (the concrete scenario of the specification). -/
def exUiRecord : Record :=
  [("name", .vStr "Nginx"), ("has_ui", .vBool true), ("ui_port", .vInt 80),
   ("protocol", .vStr "http"), ("icon", .vStr "nginx.png"),
   ("dashy_tile_section", .vStr "Infra"), ("dashy_tile_url_suffix", .vStr ""),
   ("is_reverse_proxy", .vBool true)]

/-- A minimal valid non-UI record. -/
def exPlainRecord : Record := [("name", .vStr "x")]

/-! ### Claims -/

/-- C1: starting from the empty store, after every successful Create, Update
or Delete the whole store satisfies the invariants I1 to I5: identifiers are
non-empty, match the identifier pattern and are unique; among records with
truthy has_ui the ui_port values are pairwise distinct; at most one record has
truthy is_reverse_proxy; every record with truthy has_ui passes the UI field
group validation; and every record has a truthy name. -/
theorem C1_invariants_hold (m : Manager) (h : Reachable m) : StoreInv m.components_data := by
  induction h with
  | init f => exact inv_nil
  | add hr hadd ih => exact storeInv_add ih hadd
  | update hr hupd ih => exact storeInv_update ih hupd
  | delete hr hdel ih => exact storeInv_delete ih hdel

/-- Witness for C1 at a concrete reachable state: the store obtained by one
successful Create from the empty store satisfies all invariants. -/
theorem C1_invariants_hold_witness : StoreInv [("nginx", exUiRecord)] :=
  C1_invariants_hold _
    (Reachable.add (Reachable.init .absent)
      (show add_component exManager0 "nginx" exUiRecord =
        (.ok (), ⟨[("nginx", exUiRecord)], .json (storeToJson [("nginx", exUiRecord)])⟩) from rfl))

/-- C2: whenever Create, Update or Delete fails (a ValidationError, the only
error kind the operations produce), the in-memory map and the backing file are
exactly as before the call; and Delete or Update of an identifier that is not
in the store always fails with the store unchanged. -/
theorem C2_failure_leaves_state_unchanged (m : Manager) (cid : String) (data : Record) :
    (∀ e m2, add_component m cid data = (.error e, m2) → m2 = m) ∧
    (∀ e m2, update_component m cid data = (.error e, m2) → m2 = m) ∧
    (∀ e m2, delete_component m cid = (.error e, m2) → m2 = m) ∧
    (alookup cid m.components_data = none →
      delete_component m cid = (.error (.idNotFoundForDeletion cid), m) ∧
      ∃ e, update_component m cid data = (.error e, m)) := by
  refine ⟨fun e m2 h => add_component_error_frame m cid data e m2 h,
    fun e m2 h => update_component_error_frame m cid data e m2 h,
    fun e m2 h => delete_component_error_frame m cid e m2 h, fun hnone => ⟨?_, ?_⟩⟩
  · unfold delete_component
    simp [hnone]
  · have hv : ∃ e, _validate_component_id m.components_data cid false = .error e := by
      unfold _validate_component_id
      split_ifs with hA hB hC hD
      · exact ⟨_, rfl⟩
      · exact ⟨_, rfl⟩
      · exact ⟨_, rfl⟩
      · exact ⟨_, rfl⟩
      · exact absurd (by simp [hnone]) hD
    obtain ⟨e, he⟩ := hv
    refine ⟨e, ?_⟩
    unfold update_component
    rw [he]

/-- Witness for C2: deleting the absent id "ghost" from the empty store fails
with the not-found error and leaves the manager unchanged. -/
theorem C2_failure_leaves_state_unchanged_witness :
    delete_component exManager0 "ghost" = (.error (.idNotFoundForDeletion "ghost"), exManager0) :=
  ((C2_failure_leaves_state_unchanged exManager0 "ghost" []).2.2.2 rfl).1

/-- C9: a successful Create, Update or Delete of identifier `cid` does not
change the record stored under any other identifier: Get returns the same
result before and after. -/
theorem C9_other_records_unchanged (m m2 : Manager) (cid c2 : String) (data : Record)
    (hne : c2 ≠ cid) :
    (add_component m cid data = (.ok (), m2) → get_component m2 c2 = get_component m c2) ∧
    (update_component m cid data = (.ok (), m2) → get_component m2 c2 = get_component m c2) ∧
    (delete_component m cid = (.ok (), m2) → get_component m2 c2 = get_component m c2) := by
  refine ⟨?_, ?_, ?_⟩
  · intro h
    rw [add_component_ok_iff] at h
    have hs : m2.components_data = dinsert cid data m.components_data := by
      rw [h.2.2.2.2]; rfl
    unfold get_component
    rw [hs, alookup_dinsert, if_neg (fun h2 => hne h2.symm)]
  · intro h
    rw [update_component_ok_iff] at h
    have hs : m2.components_data = dinsert cid data m.components_data := by
      rw [h.2.2.2.2]; rfl
    unfold get_component
    rw [hs, alookup_dinsert, if_neg (fun h2 => hne h2.symm)]
  · intro h
    rw [delete_component_ok_iff] at h
    have hs : m2.components_data = ddel cid m.components_data := by
      rw [h.2]; rfl
    unfold get_component
    rw [hs, alookup_ddel _ _ _ hne]

/-- Witness for C9: adding "nginx" to a store already holding "svc-a" leaves
the record of "svc-a" unchanged. -/
theorem C9_other_records_unchanged_witness :
    get_component ⟨[("svc-a", exPlainRecord), ("nginx", exUiRecord)],
      .json (storeToJson [("svc-a", exPlainRecord), ("nginx", exUiRecord)])⟩ "svc-a" =
    get_component ⟨[("svc-a", exPlainRecord)], .absent⟩ "svc-a" :=
  (C9_other_records_unchanged ⟨[("svc-a", exPlainRecord)], .absent⟩ _ "nginx" "svc-a"
    exUiRecord (by decide)).1 rfl

/-- C3: for a store satisfying the invariants that contains a record under
`cid`, an Update whose new record keeps the stored record's own ui_port (when
has_ui is truthy, the stored record also having truthy has_ui) and keeps a
truthy is_reverse_proxy only if the stored record already had it, and which
passes the record-local checks (UI field group and name), succeeds: the
uniqueness and singleton scans exclude the record being edited. -/
theorem C3_update_self_exclusion (m : Manager) (cid : String) (r old : Record)
    (hinv : StoreInv m.components_data)
    (hold : alookup cid m.components_data = some old)
    (hdashy : _validate_dashy_tile_fields r = .ok ())
    (hname : truthy (pget r "name") = true)
    (hport : truthy (pget r "has_ui") = true →
      pget r "ui_port" = pget old "ui_port" ∧ truthy (pget old "has_ui") = true)
    (hproxy : truthy (pget r "is_reverse_proxy") = true →
      truthy (pget old "is_reverse_proxy") = true) :
    ∃ m2, update_component m cid r = (.ok (), m2) := by
  have hmem := mem_of_alookup_eq_some hold
  obtain ⟨⟨h1a, h1b⟩, h2, h3, h4, h5⟩ := hinv
  refine ⟨_save_data { m with components_data := dinsert cid r m.components_data }, ?_⟩
  rw [update_component_ok_iff]
  refine ⟨?_, ?_, ?_, hname, rfl⟩
  · rw [validate_component_id_ok_iff]
    have hid := h1a (cid, old) hmem
    exact ⟨hid.1, hid.2, by simp, fun _ => by simp [hold]⟩
  · intro ht
    refine ⟨?_, hdashy⟩
    rw [validate_ui_port_uniqueness_ok_iff]
    right
    intro q hq hqex hqu
    obtain ⟨hpeq, holdui⟩ := hport ht
    rw [hpeq]
    have hq1 : q.1 ≠ cid := fun h => hqex (by rw [h])
    exact h2 q hq (cid, old) hmem hq1 hqu holdui
  · intro ht
    rw [validate_single_reverse_proxy_ok_iff]
    right
    intro q hq hqex
    have hq1 : q.1 ≠ cid := fun h => hqex (by rw [h])
    cases hqq : truthy (pget q.2 "is_reverse_proxy") with
    | false => rfl
    | true => exact absurd (h3 q hq (cid, old) hmem hq1 hqq (hproxy ht)) not_false

/-- A record keeping the ui_port 8080 and the name changed, as in the
specification example. -/
def exSvcAOld : Record :=
  [("name", .vStr "Svc A"), ("has_ui", .vBool true), ("ui_port", .vInt 8080),
   ("protocol", .vStr "http"), ("icon", .vStr "a.png"),
   ("dashy_tile_section", .vStr "Infra"), ("dashy_tile_url_suffix", .vStr "")]

/-- The same record with only the name changed. -/
def exSvcANew : Record :=
  [("name", .vStr "Svc A renamed"), ("has_ui", .vBool true), ("ui_port", .vInt 8080),
   ("protocol", .vStr "http"), ("icon", .vStr "a.png"),
   ("dashy_tile_section", .vStr "Infra"), ("dashy_tile_url_suffix", .vStr "")]

/-- Witness for C3: updating "svc-a" with the name changed and ui_port still
8080 succeeds. -/
theorem C3_update_self_exclusion_witness :
    ∃ m2, update_component ⟨[("svc-a", exSvcAOld)], .absent⟩ "svc-a" exSvcANew = (.ok (), m2) :=
  C3_update_self_exclusion ⟨[("svc-a", exSvcAOld)], .absent⟩ "svc-a" exSvcANew exSvcAOld
    (by unfold StoreInv I1 I2 I3 I4 I5; decide) (by decide) rfl rfl (by decide) (by decide)

/-- C10: the ui_port uniqueness scan only compares against records whose
has_ui is truthy.  For a store containing a record `(cid0, d0)` with falsy (or
absent) has_ui whose ui_port equals (by Python ==) the new record's ui_port,
a Create with truthy has_ui passes the port-uniqueness check (scan with no
exclusion) and succeeds, and likewise an Update of any existing record whose
identifier passes the pattern check passes the port-uniqueness check (scan
excluding the edited record) and succeeds, provided no has_ui-truthy record
shares the port and all other validations pass. -/
theorem C10_port_check_ignores_non_ui (m : Manager) (cid cid0 : String) (r d0 : Record)
    (hmem : (cid0, d0) ∈ m.components_data)
    (hd0ui : truthy (pget d0 "has_ui") = false)
    (hd0port : pyEq (pget d0 "ui_port") (pget r "ui_port") = true)
    (hru : truthy (pget r "has_ui") = true)
    (hid : cid ≠ "" ∧ matchesIdPattern cid = true ∧ alookup cid m.components_data = none)
    (hdashy : _validate_dashy_tile_fields r = .ok ())
    (hname : truthy (pget r "name") = true)
    (hproxy : truthy (pget r "is_reverse_proxy") = true →
      _validate_single_reverse_proxy m.components_data (pget r "is_reverse_proxy") none = .ok ())
    (hother : ∀ q ∈ m.components_data, truthy (pget q.2 "has_ui") = true →
      pyEq (pget q.2 "ui_port") (pget r "ui_port") = false) :
    _validate_ui_port_uniqueness m.components_data (pget r "ui_port") none = .ok () ∧
    (∃ m2, add_component m cid r = (.ok (), m2)) ∧
    (∀ cidU : String, (alookup cidU m.components_data).isSome = true →
      cidU ≠ "" → matchesIdPattern cidU = true →
      _validate_ui_port_uniqueness m.components_data (pget r "ui_port") (some cidU) = .ok () ∧
      ∃ m2, update_component m cidU r = (.ok (), m2)) := by
  have hport : _validate_ui_port_uniqueness m.components_data (pget r "ui_port") none = .ok () := by
    rw [validate_ui_port_uniqueness_ok_iff]
    right
    intro q hq hqex hqu
    exact hother q hq hqu
  refine ⟨hport, ⟨_save_data { m with components_data := dinsert cid r m.components_data }, ?_⟩,
    fun cidU hUsome hUne hUpat => ?_⟩
  · rw [add_component_ok_iff]
    refine ⟨?_, fun _ => ⟨hport, hdashy⟩, hproxy, hname, rfl⟩
    rw [validate_component_id_ok_iff]
    exact ⟨hid.1, hid.2.1, fun _ => hid.2.2, by simp⟩
  · have hportU : _validate_ui_port_uniqueness m.components_data (pget r "ui_port")
        (some cidU) = .ok () := by
      rw [validate_ui_port_uniqueness_ok_iff]
      right
      intro q hq hqex hqu
      exact hother q hq hqu
    have hproxyU : truthy (pget r "is_reverse_proxy") = true →
        _validate_single_reverse_proxy m.components_data (pget r "is_reverse_proxy")
          (some cidU) = .ok () := by
      intro ht
      have h0 := hproxy ht
      rw [validate_single_reverse_proxy_ok_iff] at h0 ⊢
      rcases h0 with hf | hall
      · exact Or.inl hf
      · exact Or.inr (fun q hq hqex => hall q hq (by simp))
    refine ⟨hportU, _save_data { m with components_data := dinsert cidU r m.components_data }, ?_⟩
    rw [update_component_ok_iff]
    refine ⟨?_, fun _ => ⟨hportU, hdashy⟩, hproxyU, hname, rfl⟩
    rw [validate_component_id_ok_iff]
    exact ⟨hUne, hUpat, by simp, fun _ => hUsome⟩

/-- A non-UI record that nevertheless carries ui_port 8080 in the store. -/
def exDbRecord : Record :=
  [("name", .vStr "Db"), ("has_ui", .vBool false), ("ui_port", .vInt 8080)]

/-- A UI record wanting the same port 8080. -/
def exWebRecord : Record :=
  [("name", .vStr "Web"), ("has_ui", .vBool true), ("ui_port", .vInt 8080),
   ("protocol", .vStr "http"), ("icon", .vStr "w.png"),
   ("dashy_tile_section", .vStr "Infra"), ("dashy_tile_url_suffix", .vStr "")]

/-- An existing UI record "app" on a different port 9090, to be updated onto
port 8080. -/
def exAppRecord : Record :=
  [("name", .vStr "App"), ("has_ui", .vBool true), ("ui_port", .vInt 9090),
   ("protocol", .vStr "http"), ("icon", .vStr "a.png"),
   ("dashy_tile_section", .vStr "Infra"), ("dashy_tile_url_suffix", .vStr "")]

/-- The store of the C10 witness scenario: a non-UI record "db" holding
ui_port 8080 and a UI record "app" on port 9090. -/
def exStore10 : Store := [("db", exDbRecord), ("app", exAppRecord)]

/-- Witness for C10: with the non-UI record "db" holding ui_port 8080,
creating "web" with ui_port 8080 succeeds, and updating the existing record
"app" onto ui_port 8080 also succeeds (scan excluding "app"). -/
theorem C10_port_check_ignores_non_ui_witness :
    (_validate_ui_port_uniqueness exStore10 (pget exWebRecord "ui_port") none = .ok () ∧
     ∃ m2, add_component ⟨exStore10, .absent⟩ "web" exWebRecord = (.ok (), m2)) ∧
    (_validate_ui_port_uniqueness exStore10 (pget exWebRecord "ui_port") (some "app") = .ok () ∧
     ∃ m2, update_component ⟨exStore10, .absent⟩ "app" exWebRecord = (.ok (), m2)) := by
  have h := C10_port_check_ignores_non_ui ⟨exStore10, .absent⟩ "web" "db" exWebRecord exDbRecord
    (by decide) (by decide) (by decide) (by decide) (by decide) rfl (by decide)
    (fun h2 => absurd h2 (by decide)) (by decide)
  exact ⟨⟨h.1, h.2.1⟩, h.2.2 "app" (by decide) (by decide) (by decide)⟩

/-! ### Identifier pattern facts and UI-field failure lemmas -/

theorem matches_ne_empty {cid : String} (h : matchesIdPattern cid = true) : cid ≠ "" := by
  intro heq
  rw [heq] at h
  exact absurd h (by decide)

theorem validate_id_error_invalid (s : Store) (cid : String) (is_new : Bool)
    (hne : cid ≠ "") (hpat : matchesIdPattern cid = false) :
    _validate_component_id s cid is_new = .error .idInvalidChars := by
  unfold _validate_component_id
  simp [hne, hpat]

theorem add_component_fails_of_ui_validation (m : Manager) (cid : String) (r : Record) (e : VErr)
    (hu : truthy (pget r "has_ui") = true)
    (hd : _validate_dashy_tile_fields r = .error e) :
    ∃ e2, add_component m cid r = (.error e2, m) := by
  unfold add_component
  cases h1 : _validate_component_id m.components_data cid true with
  | error e3 => exact ⟨e3, rfl⟩
  | ok u =>
    cases u
    rw [hu]
    cases h2 : _validate_ui_port_uniqueness m.components_data (pget r "ui_port") none with
    | error e3 => exact ⟨e3, by simp⟩
    | ok u2 =>
      cases u2
      exact ⟨e, by simp [hd]⟩

theorem update_component_fails_of_ui_validation (m : Manager) (cid : String) (r : Record) (e : VErr)
    (hu : truthy (pget r "has_ui") = true)
    (hd : _validate_dashy_tile_fields r = .error e) :
    ∃ e2, update_component m cid r = (.error e2, m) := by
  unfold update_component
  cases h1 : _validate_component_id m.components_data cid false with
  | error e3 => exact ⟨e3, rfl⟩
  | ok u =>
    cases u
    rw [hu]
    cases h2 : _validate_ui_port_uniqueness m.components_data (pget r "ui_port") (some cid) with
    | error e3 => exact ⟨e3, by simp⟩
    | ok u2 =>
      cases u2
      exact ⟨e, by simp [hd]⟩

/-- C4 counterexample: the claim says Create must fail for every identifier
containing a character outside lowercase letters, digits and the hyphen, but
Create of the identifier "abc" followed by a newline succeeds on the empty
store, although the newline is outside that character class: Python `$`
matches just before a trailing newline. -/
theorem C4_counterexample :
    (add_component exManager0 "abc\n" exPlainRecord).1 = .ok () ∧
    Char.ofNat 10 ∈ "abc\n".data ∧ isIdChar (Char.ofNat 10) = false :=
  ⟨rfl, by decide, by decide⟩

/-- C4 (amended): an identifier that is non-empty and matches the pattern as
Python evaluates it is accepted by Create when the other validations pass, and
an identifier containing any character outside lowercase letters, digits and
the hyphen is rejected with the invalid-characters error, except in the one
case the counterexample forces: a valid nonempty body followed by a single
trailing newline, which Python `$` accepts. -/
theorem C4_id_validation (m : Manager) (cid : String) (r : Record) :
    ((matchesIdPattern cid = true ∧ alookup cid m.components_data = none ∧
      (truthy (pget r "has_ui") = true →
        _validate_ui_port_uniqueness m.components_data (pget r "ui_port") none = .ok () ∧
        _validate_dashy_tile_fields r = .ok ()) ∧
      (truthy (pget r "is_reverse_proxy") = true →
        _validate_single_reverse_proxy m.components_data (pget r "is_reverse_proxy") none = .ok ()) ∧
      truthy (pget r "name") = true) →
      ∃ m2, add_component m cid r = (.ok (), m2)) ∧
    ((∃ c ∈ cid.data, isIdChar c = false) →
      ¬(cid.data.getLast? = some (Char.ofNat 10) ∧ idBodyOk cid.data.dropLast = true) →
      add_component m cid r = (.error .idInvalidChars, m)) := by
  constructor
  · rintro ⟨hpat, hfresh, hui, hproxy, hname⟩
    refine ⟨_save_data { m with components_data := dinsert cid r m.components_data }, ?_⟩
    rw [add_component_ok_iff]
    refine ⟨?_, hui, hproxy, hname, rfl⟩
    rw [validate_component_id_ok_iff]
    exact ⟨matches_ne_empty hpat, hpat, fun _ => hfresh, by simp⟩
  · intro hex hexc
    have hbody : idBodyOk cid.data = false := by
      obtain ⟨c, hc, hbad⟩ := hex
      cases hall : cid.data.all isIdChar with
      | false => simp [idBodyOk, hall]
      | true =>
        rw [List.all_eq_true] at hall
        exact absurd (hall c hc) (by simp [hbad])
    have hpat : matchesIdPattern cid = false := by
      unfold matchesIdPattern
      rw [hbody]
      simp only [Bool.false_or]
      cases hgl : (cid.data.getLast? == some (Char.ofNat 10)) with
      | false => simp
      | true =>
        cases hdb : idBodyOk cid.data.dropLast with
        | false => simp [hdb]
        | true =>
          rw [beq_iff_eq] at hgl
          exact absurd ⟨hgl, hdb⟩ hexc
    have hne : cid ≠ "" := by
      obtain ⟨c, hc, -⟩ := hex
      intro heq
      rw [heq] at hc
      exact List.not_mem_nil c hc
    have hv := validate_id_error_invalid m.components_data cid true hne hpat
    unfold add_component
    rw [hv]

/-- Witness for C4 amended: creating "web-1" on the empty store succeeds, and
creating with identifier "Bad_Id" fails with the invalid-characters error. -/
theorem C4_id_validation_witness :
    (∃ m2, add_component exManager0 "web-1" exPlainRecord = (.ok (), m2)) ∧
    add_component exManager0 "Bad_Id" exPlainRecord = (.error .idInvalidChars, exManager0) :=
  ⟨(C4_id_validation exManager0 "web-1" exPlainRecord).1
      ⟨by decide, by decide, fun h => absurd h (by decide), fun h => absurd h (by decide), by decide⟩,
   (C4_id_validation exManager0 "Bad_Id" exPlainRecord).2
      ⟨Char.ofNat 66, by decide, by decide⟩ (by decide)⟩

/-- C5: for a record with truthy has_ui, the UI field-group validation fails
with the error naming the offending field in each specified situation, checked
in source order: ui_port missing (None or absent), ui_port not an int in 1 to
65535 (so 0 and 70000 fail; Python bools count as ints), protocol missing or
falsy, protocol not http or https, icon missing or falsy, dashy_tile_section
missing or falsy, dashy_tile_url_suffix absent or None (the empty string
passes); and whenever this validation fails, both Create and Update fail with
a ValidationError and the state unchanged. -/
theorem C5_ui_field_group (r : Record) (hu : truthy (pget r "has_ui") = true) :
    (pget r "ui_port" = .vNone → _validate_dashy_tile_fields r = .error .uiPortRequired) ∧
    (pget r "ui_port" ≠ .vNone → pyIntOk (pget r "ui_port") = false →
      _validate_dashy_tile_fields r = .error .uiPortNotInRange) ∧
    (pget r "ui_port" ≠ .vNone → pyIntOk (pget r "ui_port") = true →
      truthy (pget r "protocol") = false →
      _validate_dashy_tile_fields r = .error .protocolRequired) ∧
    (pget r "ui_port" ≠ .vNone → pyIntOk (pget r "ui_port") = true →
      truthy (pget r "protocol") = true → protocolAllowed (pget r "protocol") = false →
      _validate_dashy_tile_fields r = .error .protocolInvalid) ∧
    (pget r "ui_port" ≠ .vNone → pyIntOk (pget r "ui_port") = true →
      truthy (pget r "protocol") = true → protocolAllowed (pget r "protocol") = true →
      truthy (pget r "icon") = false →
      _validate_dashy_tile_fields r = .error .iconRequired) ∧
    (pget r "ui_port" ≠ .vNone → pyIntOk (pget r "ui_port") = true →
      truthy (pget r "protocol") = true → protocolAllowed (pget r "protocol") = true →
      truthy (pget r "icon") = true → truthy (pget r "dashy_tile_section") = false →
      _validate_dashy_tile_fields r = .error .dashySectionRequired) ∧
    (pget r "ui_port" ≠ .vNone → pyIntOk (pget r "ui_port") = true →
      truthy (pget r "protocol") = true → protocolAllowed (pget r "protocol") = true →
      truthy (pget r "icon") = true → truthy (pget r "dashy_tile_section") = true →
      pget r "dashy_tile_url_suffix" = .vNone →
      _validate_dashy_tile_fields r = .error .dashyUrlSuffixRequired) ∧
    (∀ e, _validate_dashy_tile_fields r = .error e → ∀ (m : Manager) (cid : String),
      (∃ e2, add_component m cid r = (.error e2, m)) ∧
      (∃ e2, update_component m cid r = (.error e2, m))) := by
  refine ⟨?_, ?_, ?_, ?_, ?_, ?_, ?_, ?_⟩
  · intro h1
    unfold _validate_dashy_tile_fields
    simp [hu, h1]
  · intro h1 h2
    unfold _validate_dashy_tile_fields
    simp [hu, h1, h2]
  · intro h1 h2 h3
    unfold _validate_dashy_tile_fields
    simp [hu, h1, h2, h3]
  · intro h1 h2 h3 h4
    unfold _validate_dashy_tile_fields
    simp [hu, h1, h2, h3, h4]
  · intro h1 h2 h3 h4 h5
    unfold _validate_dashy_tile_fields
    simp [hu, h1, h2, h3, h4, h5]
  · intro h1 h2 h3 h4 h5 h6
    unfold _validate_dashy_tile_fields
    simp [hu, h1, h2, h3, h4, h5, h6]
  · intro h1 h2 h3 h4 h5 h6 h7
    unfold _validate_dashy_tile_fields
    simp [hu, h1, h2, h3, h4, h5, h6, h7]
  · intro e he m cid
    exact ⟨add_component_fails_of_ui_validation m cid r e hu he,
      update_component_fails_of_ui_validation m cid r e hu he⟩

/-- A UI record with the out-of-range ui_port 0. -/
def exPort0Record : Record :=
  [("name", .vStr "Bad"), ("has_ui", .vBool true), ("ui_port", .vInt 0),
   ("protocol", .vStr "http"), ("icon", .vStr "b.png"),
   ("dashy_tile_section", .vStr "Infra"), ("dashy_tile_url_suffix", .vStr "")]

/-- Witness for C5: ui_port 0 makes the UI field-group validation fail with
the range error, and Create of such a record fails leaving the store as it
was. -/
theorem C5_ui_field_group_witness :
    _validate_dashy_tile_fields exPort0Record = .error .uiPortNotInRange ∧
    ∃ e2, add_component exManager0 "bad" exPort0Record = (.error e2, exManager0) := by
  have h := C5_ui_field_group exPort0Record (by decide)
  have h2 := h.2.1 (by decide) (by decide)
  exact ⟨h2, (h.2.2.2.2.2.2.2 _ h2 exManager0 "bad").1⟩

/-- C6: loading behaves by cases on the backing file: a missing file yields
the empty store without error; a file parsing to a JSON object is adopted as
the initial state; an unparsable file fails with the parse error; and a file
parsing to anything other than a JSON object fails with the not-a-dictionary
error, so no store is constructed. -/
theorem C6_load_behavior (j : Json) (kvs : List (String × Json)) :
    _load_data .absent = .ok [] ∧
    _load_data (.json (.obj kvs)) = .ok kvs ∧
    _load_data .malformed = .error .parseError ∧
    ((∀ kvs2, j ≠ .obj kvs2) → _load_data (.json j) = .error .notADict) := by
  refine ⟨rfl, rfl, rfl, fun hne => ?_⟩
  cases j with
  | obj kvs2 => exact absurd rfl (hne kvs2)
  | null => rfl
  | bool b => rfl
  | num n => rfl
  | str s => rfl
  | arr xs => rfl

/-- Witness for C6: a file holding the JSON number 5 is rejected with the
not-a-dictionary error, and a missing file yields the empty store. -/
theorem C6_load_behavior_witness :
    _load_data (.json (.num 5)) = .error .notADict ∧ _load_data .absent = .ok [] :=
  ⟨(C6_load_behavior (.num 5) []).2.2.2 (fun kvs2 h => Json.noConfusion h),
   (C6_load_behavior (.num 5) []).1⟩

/-- Interpretation of a loaded backing document as a store of records,
composing `_load_data` with the reading of each record object. -/
def load_store (f : FileContent) : Option Store :=
  match _load_data f with
  | .ok kvs => storeFromJsonKvs kvs
  | .error _ => none

theorem recordFromJsonFields_roundtrip (r : Record) :
    recordFromJsonFields (recordToJsonFields r) = some r := by
  induction r with
  | nil => rfl
  | cons hd tl ih =>
    obtain ⟨k, v⟩ := hd
    have hcons : recordToJsonFields ((k, v) :: tl) =
        (k, scalarToJson v) :: recordToJsonFields tl := rfl
    rw [hcons, recordFromJsonFields, ih]
    cases v <;> rfl

theorem storeFromJsonKvs_roundtrip (s : Store) :
    storeFromJsonKvs (s.map fun e => (e.1, Json.obj (recordToJsonFields e.2))) = some s := by
  induction s with
  | nil => rfl
  | cons hd tl ih =>
    obtain ⟨k, r⟩ := hd
    simp only [List.map_cons]
    rw [storeFromJsonKvs, recordFromJson, recordFromJsonFields_roundtrip r, ih]

/-- C7: persisting the in-memory map and then loading from the same path
yields exactly the mapping that was persisted: serialization followed by
parsing is the identity on store states. -/
theorem C7_persist_load_roundtrip (m : Manager) :
    load_store (_save_data m).file = some m.components_data := by
  show load_store (.json (storeToJson m.components_data)) = some m.components_data
  unfold load_store storeToJson _load_data
  exact storeFromJsonKvs_roundtrip m.components_data

/-! ### Object-identity model for `get_all_components`

`get_all_components` is `return self.components_data` (source line 48): the
caller receives the manager's own dict object, not a copy and not a read-only
view.  To state what mutation through the returned value does, dict objects
are modelled by addresses in a heap, the manager holds the address of its
dict, and the method returns that very address. -/

/-- A heap of dict objects: contents of the dict at each address. -/
def PyHeap : Type := Nat → Store

/-- A manager as CPython sees it: it holds a reference (address) to its
`components_data` dict. -/
structure ManagerRef where
  components_data_addr : Nat

/-- `get_all_components` returns the internal dict object itself: the address
the manager holds (source: `return self.components_data`). -/
def get_all_components_ref (m : ManagerRef) : Nat :=
  m.components_data_addr

/-- Caller-side mutation `returned[k] = v` of a dict reference: the dict at
that address changes in place. -/
def heap_setitem (h : PyHeap) (addr : Nat) (k : String) (v : Record) : PyHeap :=
  fun a => if a = addr then dinsert k v (h addr) else h a

/-- The store as the manager observes it: the contents of its own dict. -/
def manager_view (h : PyHeap) (m : ManagerRef) : Store :=
  h m.components_data_addr

/-- The empty heap. -/
def exHeap0 : PyHeap := fun _ => []

/-- A manager whose dict lives at address 0. -/
def exManagerRef : ManagerRef := ⟨0⟩

/-- C8 counterexample: the claim says mutating the mapping returned by GetAll
does not change the store's internal state, but writing a key through the
returned reference makes the manager's own dict different: the method returns
the internal dict itself, bypassing validation. -/
theorem C8_counterexample :
    manager_view (heap_setitem exHeap0 (get_all_components_ref exManagerRef) "rogue" [])
        exManagerRef ≠ manager_view exHeap0 exManagerRef := by
  decide

/-- C8 (amended): GetAll returns the internal mapping object itself, so
caller-side mutation through the returned reference is exactly direct mutation
of the store's internal state (no copy and no read-only view protects it). -/
theorem C8_get_all_aliases_store (h : PyHeap) (m : ManagerRef) (k : String) (v : Record) :
    manager_view (heap_setitem h (get_all_components_ref m) k v) m =
      dinsert k v (manager_view h m) := by
  unfold manager_view heap_setitem get_all_components_ref
  simp
